import Mathlib

/-!
Verification of the pAuth dynamic-schema storage engine and RBAC evaluator.

Shallow embedding of the Go sources:
* `pkg/apis/auth/v1alpha1` — RBAC value types (`Subject`, `PolicyRule`, `Role`,
  `RoleBinding`, `User`).
* `pkg/errors` — the structured `StatusError` taxonomy versus plain
  `fmt.Errorf` errors, modelled by `SvcError`.
* `pkg/controllers/rbac_controller.go` — `CheckAccess`.
* `internal/store/dynamic/query/query_builder.go` — the query builder.
* the internal dynamic store (`DynamicStore`): `DynamicSelect`,
  `DynamicDelete`, `DynamicUpdate`, `DropColumn`, `GetTableSchema`.
* `pkg/store/sqlite` `TableManager.CreateTable` / `TableExists`.
* `pkg/store/dynamic/sqlite/store.go` — `SQLiteDynamicStore.Get`.
* the user store (`Store.Update`, `Store.Get`, `FindByUsername`,
  `FindByEmail`).

Go byte-strings are modelled by `String`, `interface{}` row values by
`Option String` (`none` is SQL `NULL`), rows by association lists from column
name to value, and the database by an association list from table name to
table.
-/

namespace PAuth

/-- `strings.Join(elems, sep)` from the Go standard library. -/
def goJoin (elems : List String) (sep : String) : String :=
  match elems with
  | [] => ""
  | x :: xs => xs.foldl (fun acc e => acc ++ sep ++ e) x

/-- Errors of the service.  `status` is `pkg/errors.StatusError` (code,
message, reason); `plain` is an unstructured error built with `fmt.Errorf`. -/
inductive SvcError where
  | status (code : Nat) (message : String) (reason : String)
  | plain (msg : String)
deriving DecidableEq, Repr

/-- Whether an error is a structured `pkg/errors.StatusError`. -/
def SvcError.isStatus : SvcError → Bool
  | .status _ _ _ => true
  | .plain _ => false

/-- `errors.ErrInternal.WithReason` (500). -/
def errInternal (reason : String) : SvcError :=
  .status 500 "internal server error" reason

/-- `errors.ErrStorageOperation.WithReason` (500). -/
def errStorageOperation (reason : String) : SvcError :=
  .status 500 "storage operation failed" reason

/-- `errors.ErrAlreadyExists.WithReason` (409). -/
def errAlreadyExists (reason : String) : SvcError :=
  .status 409 "resource already exists" reason

/-- `errors.ErrNotFound.WithReason` (404). -/
def errNotFound (reason : String) : SvcError :=
  .status 404 "resource not found" reason

/-- `errors.ErrUserNotFound` (404). -/
def errUserNotFound : SvcError :=
  .status 404 "user not found" ""

/-- `errors.ErrRoleNotFound` (404). -/
def errRoleNotFound : SvcError :=
  .status 404 "role not found" ""

/-- `errors.ErrInvalidInput.WithReason` (400). -/
def errInvalidInput (reason : String) : SvcError :=
  .status 400 "invalid input" reason

/-! ## RBAC data model (`pkg/apis/auth/v1alpha1`) -/

/-- `v1alpha1.Subject`. -/
structure Subject where
  kind : String
  name : String
deriving DecidableEq, Repr

/-- `v1alpha1.PolicyRule`. -/
structure PolicyRule where
  verbs : List String
  resources : List String
  apiGroups : List String
deriving DecidableEq, Repr

/-- `v1alpha1.RoleRef`. -/
structure RoleRef where
  kind : String
  name : String
deriving DecidableEq, Repr

/-- `v1alpha1.Role` (metadata beyond the name is irrelevant to CheckAccess). -/
structure Role where
  name : String
  rules : List PolicyRule
deriving DecidableEq, Repr

/-- `v1alpha1.RoleBinding`. -/
structure RoleBinding where
  name : String
  roleRef : RoleRef
  subjects : List Subject
deriving DecidableEq, Repr

/-- `v1alpha1.User`, reduced to the only attribute CheckAccess reads:
`user.Name` (ObjectMeta.Name). -/
structure User where
  name : String
deriving DecidableEq, Repr

/-- The two store calls `rbacController.CheckAccess` makes, abstracted as
their results: `ListRoleBindings` and `GetRole` per role name. -/
structure RBACStore where
  listRoleBindings : Except SvcError (List RoleBinding)
  getRole : String → Except SvcError Role

/-- `contains(slice, item)` from `rbac_controller.go`. -/
def containsStr (slice : List String) (item : String) : Bool :=
  slice.any (fun s => s == item)

/-- The body of the rules loop of `CheckAccess`: a rule is skipped
(`continue`) unless the API group and resource sets match, and permits the
request when additionally the verb set matches. -/
def ruleAllows (rule : PolicyRule) (verb resource apiGroup : String) : Bool :=
  if !containsStr rule.apiGroups apiGroup && !containsStr rule.apiGroups "*" then
    false
  else if !containsStr rule.resources resource && !containsStr rule.resources "*" then
    false
  else
    containsStr rule.verbs verb || containsStr rule.verbs "*"

/-- The first loop of `CheckAccess`: for each binding, the binding is appended
to `userBindings` once per subject with `Kind == "User"` and
`Name == user.Name`. -/
def collectUserBindings (userName : String) : List RoleBinding → List RoleBinding
  | [] => []
  | b :: rest =>
      (b.subjects.filter (fun s => s.kind == "User" && s.name == userName)).map
          (fun _ => b)
        ++ collectUserBindings userName rest

/-- The body of the second loop of `CheckAccess`: fetch the referenced role,
`continue` (contribute no permission) on any `GetRole` error, else scan the
role's rules. -/
def grantsVia (store : RBACStore) (verb resource apiGroup : String)
    (b : RoleBinding) : Bool :=
  match store.getRole b.roleRef.name with
  | .error _ => false
  | .ok role => role.rules.any (fun rule => ruleAllows rule verb resource apiGroup)

/-- `rbacController.CheckAccess`.  A failing `ListRoleBindings` is wrapped
into `ErrInternal`; a failing `GetRole` is skipped (`continue`) whatever the
error; the permission decision is the boolean result. -/
def checkAccess (store : RBACStore) (user : User)
    (verb resource apiGroup : String) : Except SvcError Bool :=
  match store.listRoleBindings with
  | .error _ => .error (errInternal "failed to list role bindings")
  | .ok bindings =>
      .ok ((collectUserBindings user.name bindings).any
        (grantsVia store verb resource apiGroup))

/-! ## Query builder (`internal/store/dynamic/query/query_builder.go`) -/

/-- `query.WhereCondition`.  Values travel as opaque parameters; they are
modelled by strings. -/
structure WhereCondition where
  column : String
  op : String
  value : String
deriving DecidableEq, Repr

/-- `query.OrderByClause`. -/
structure OrderByClause where
  column : String
  desc : Bool
deriving DecidableEq, Repr

/-- `query.QueryParams`.  `Limit`/`Offset` are Go `int`s; `Args` is the
positional parameter accumulator. -/
structure QueryParams where
  selectColumns : List String
  whereConds : List WhereCondition
  orderBy : List OrderByClause
  limit : Int
  offset : Int
  args : List String
deriving DecidableEq, Repr

/-- `QueryParams.GetSelectClause`. -/
def getSelectClause (p : QueryParams) : String :=
  if p.selectColumns.isEmpty then "*"
  else goJoin p.selectColumns ", "

/-- `QueryParams.GetWhereClause`.  The receiver is a pointer: the method both
returns the clause text and appends every predicate value to `p.Args`, so the
result is the pair (clause, updated builder). -/
def getWhereClause (p : QueryParams) : String × QueryParams :=
  if p.whereConds.isEmpty then ("", p)
  else
    (goJoin (p.whereConds.map (fun w => w.column ++ " " ++ w.op ++ " ?")) " AND ",
     { p with args := p.args ++ p.whereConds.map (fun w => w.value) })

/-- `QueryParams.GetOrderByClause`. -/
def getOrderByClause (p : QueryParams) : String :=
  if p.orderBy.isEmpty then ""
  else goJoin (p.orderBy.map (fun o => if o.desc then o.column ++ " DESC" else o.column)) ", "

/-- `QueryParams.GetLimitClause`. -/
def getLimitClause (p : QueryParams) : String :=
  if p.limit ≤ 0 then ""
  else if p.offset > 0 then
    "LIMIT " ++ toString p.limit ++ " OFFSET " ++ toString p.offset
  else "LIMIT " ++ toString p.limit

/-- `QueryParams.GetArgs`. -/
def getArgs (p : QueryParams) : List String :=
  p.args

/-- `QueryParams.AddWhere`: appends the predicate unconditionally — the
operator string is not validated. -/
def addWhere (p : QueryParams) (column op value : String) : QueryParams :=
  { p with whereConds := p.whereConds ++ [⟨column, op, value⟩] }

/-- `QueryParams.AddOrderBy`. -/
def addOrderBy (p : QueryParams) (column : String) (desc : Bool) : QueryParams :=
  { p with orderBy := p.orderBy ++ [⟨column, desc⟩] }

/-- The SQL assembly of `DynamicStore.DynamicQuery`: select clause, optional
WHERE / ORDER BY / LIMIT fragments, and the argument list read off the builder
after `GetWhereClause` has run.  Returns (sql, args, builder afterwards). -/
def buildQuery (tableName : String) (p : QueryParams) :
    String × List String × QueryParams :=
  let base := "SELECT " ++ getSelectClause p ++ " FROM " ++ tableName
  let wp := getWhereClause p
  let q1 := if wp.1 == "" then base else base ++ " WHERE " ++ wp.1
  let q2 := if getOrderByClause wp.2 == "" then q1 else q1 ++ " ORDER BY " ++ getOrderByClause wp.2
  let q3 := if getLimitClause wp.2 == "" then q2 else q2 ++ " " ++ getLimitClause wp.2
  (q3, getArgs wp.2, wp.2)

/-! ## Dynamic tables (internal `DynamicStore` and the gorm-based
`SQLiteDynamicStore`)

A cell value is `Option String`: `none` is SQL `NULL`.  A row is an
association list from column name to value (every column of the table is
present in every row, absent keys read as `NULL`).  A table couples the
column list reported by `PRAGMA table_info` — strings of the form
`"<name> <type>"` — with its rows, and the database maps table names to
tables. -/

/-- A SQL cell: `none` is `NULL`. -/
abbrev Value := Option String

/-- A row: column name to value. -/
abbrev Row := List (String × Value)

/-- Reading a column of a row (`NULL` when the column is absent). -/
def rowGet (r : Row) (c : String) : Value :=
  match r.find? (fun p => p.1 == c) with
  | some p => p.2
  | none => none

/-- `UPDATE ... SET c = v` on one row: the column is bound to `v`, every
other column keeps its value. -/
def rowSet (r : Row) (c : String) (v : Value) : Row :=
  (c, v) :: r.filter (fun p => p.1 != c)

/-- A physical table: `PRAGMA table_info` column strings plus the rows. -/
structure DynTable where
  cols : List String
  rows : List Row
deriving DecidableEq, Repr

/-- The database: table name to table. -/
abbrev DynDB := List (String × DynTable)

/-- Find a table by name. -/
def dbLookup (db : DynDB) (t : String) : Option DynTable :=
  (db.find? (fun e => e.1 == t)).map (fun e => e.2)

/-- The rows of a table (a query on a missing table is not modelled; it
reads as empty). -/
def tableRows (db : DynDB) (t : String) : List Row :=
  match dbLookup db t with
  | some tab => tab.rows
  | none => []

/-- Replace the rows of table `t`. -/
def dbSetRows (db : DynDB) (t : String) (rows : List Row) : DynDB :=
  db.map (fun e => if e.1 == t then (e.1, ⟨e.2.cols, rows⟩) else e)

/-- `DynamicStore.GetTableSchema`: the `"<name> <type>"` strings from
`PRAGMA table_info(t)`; the pragma yields no rows for a missing table. -/
def getTableSchema (db : DynDB) (t : String) : List String :=
  match dbLookup db t with
  | some tab => tab.cols
  | none => []

/-- `DynamicStore.DynamicSelect`: `WHERE deleted_at IS NULL` plus one
`col = ?` conjunct per filter entry (SQL equality never matches `NULL`). -/
def dynamicSelect (db : DynDB) (t : String) (conds : List (String × String)) :
    List Row :=
  (tableRows db t).filter (fun r =>
    (rowGet r "deleted_at").isNone &&
      conds.all (fun cv => rowGet r cv.1 == some cv.2))

/-- `DynamicStore.DynamicDelete`: soft delete,
`UPDATE t SET deleted_at = CURRENT_TIMESTAMP WHERE id = ? AND deleted_at IS
NULL`; zero rows affected is the error `no record found`.  `now` stands for
`CURRENT_TIMESTAMP`. -/
def dynamicDelete (now : String) (db : DynDB) (t : String) (id : String) :
    DynDB × Option SvcError :=
  let rows := tableRows db t
  let hit := fun r => rowGet r "id" == some id && (rowGet r "deleted_at").isNone
  let affected := (rows.filter hit).length
  if affected = 0 then
    (db, some (.plain ("no record found with id: " ++ id)))
  else
    (dbSetRows db t (rows.map (fun r =>
      if hit r then rowSet r "deleted_at" (some now) else r)), none)

/-- The parameterized SQL text `DynamicStore.DynamicUpdate` builds from the
patch's column list:
`UPDATE <t> SET <col = ?, ...>, updated_at = CURRENT_TIMESTAMP WHERE id = ?`. -/
def dynamicUpdateSQL (tableName : String) (setCols : List String) : String :=
  "UPDATE " ++ tableName ++ " SET "
    ++ goJoin (setCols.map (fun c => c ++ " = ?")) ", "
    ++ ", updated_at = CURRENT_TIMESTAMP WHERE id = ?"

/-- The row effect of executing `DynamicStore.DynamicUpdate`: every row with
the id gets the patch columns and a fresh `updated_at`; zero affected rows is
the error `no record found`.  An empty patch yields the malformed statement
`UPDATE t SET , updated_at = ...`, which the engine rejects (claim C9); that
rejection is the `SQL logic error` branch here. -/
def dynamicUpdateApply (now : String) (db : DynDB) (t : String) (id : String)
    (data : List (String × Value)) : DynDB × Option SvcError :=
  if data.isEmpty then
    (db, some (.plain "SQL logic error: incomplete input"))
  else
    let rows := tableRows db t
    let hit := fun r => rowGet r "id" == some id
    let affected := (rows.filter hit).length
    if affected = 0 then
      (db, some (.plain ("no record found with id: " ++ id)))
    else
      (dbSetRows db t (rows.map (fun r =>
        if hit r then
          rowSet (data.foldl (fun acc cv => rowSet acc cv.1 cv.2) r)
            "updated_at" (some now)
        else r)), none)

/-- `SQLiteDynamicStore.Get` (the gorm store): `WHERE id = ?` — and nothing
else: it does not filter on `deleted_at`.  The first row is returned, no row
is `ErrNotFound`. -/
def sqliteGet (db : DynDB) (t : String) (id : String) : Except SvcError Row :=
  match (tableRows db t).find? (fun r => rowGet r "id" == some id) with
  | some r => .ok r
  | none => .error (errNotFound (t ++ "/" ++ id))

/-- The user store's `Get`: `DynamicSelect("users", {id: name})`, empty result
is `ErrUserNotFound`, else the first row (its decoding through `mapToUser` is
not modelled). -/
def userGetRow (db : DynDB) (name : String) : Except SvcError Row :=
  match dynamicSelect db "users" [("id", name)] with
  | [] => .error errUserNotFound
  | r :: _ => .ok r

/-- The user store's `FindByUsername`. -/
def findByUsernameRow (db : DynDB) (username : String) : Except SvcError Row :=
  match dynamicSelect db "users" [("username", username)] with
  | [] => .error errUserNotFound
  | r :: _ => .ok r

/-- The user store's `FindByEmail`. -/
def findByEmailRow (db : DynDB) (email : String) : Except SvcError Row :=
  match dynamicSelect db "users" [("email", email)] with
  | [] => .error errUserNotFound
  | r :: _ => .ok r

/-! ## Column drop (`DynamicStore.DropColumn`) -/

/-- `strings.HasPrefix(s, pre)`. -/
def goHasPre (s pre : String) : Bool :=
  pre.data.isPrefixOf s.data

/-- `strings.Split(col, " ")[0]`: the column name of a `"<name> <type>"`
schema entry. -/
def colName (col : String) : String :=
  ⟨col.data.takeWhile (fun ch => ch != ' ')⟩

/-- `getColumnNames`: the first space-separated token of every entry. -/
def getColumnNames (columns : List String) : List String :=
  columns.map colName

/-- The effect of `INSERT INTO temp SELECT <names> FROM src` on one source
row: the temp table's columns are exactly the retained names, in order, and
each receives the source row's value for that name. -/
def projectRow (names : List String) (r : Row) : Row :=
  names.map (fun n => (n, rowGet r n))

/-- The batch-copy loop of `DropColumn`.  Each iteration executes
`INSERT INTO <temp> SELECT <names> FROM <src> LIMIT <batchSize> OFFSET
<offset>`; `fail o` is the engine's verdict for the execution at offset `o`
(`some errText` when the exec errors, in which case the loop returns the
wrapped error).  A successful execution reports as many rows affected as the
`LIMIT/OFFSET` window selected; on zero the loop stops, otherwise the offset
advances by the batch size.  Returns the rows copied into temp so far,
paired with the error if any. -/
def copyLoop (fail : Nat → Option String) (src : List Row)
    (names : List String) (batchSize offset : Nat) (acc : List Row) :
    List Row × Option String :=
  match fail offset with
  | some errText => (acc, some ("failed to copy data in batches: " ++ errText))
  | none =>
      let batch := ((src.drop offset).take batchSize).map (projectRow names)
      if h : batch = [] then (acc, none)
      else
        copyLoop fail src names batchSize (offset + batchSize) (acc ++ batch)
termination_by src.length - offset
decreasing_by
  have h1 : (src.drop offset).take batchSize ≠ [] := by
    intro he
    apply h
    show ((src.drop offset).take batchSize).map (projectRow names) = []
    rw [he]
    rfl
  have h3 : batchSize ≠ 0 := by
    intro hb0
    exact h1 (by rw [hb0]; rfl)
  have h2 : offset < src.length := by
    by_contra hle
    refine h1 ?_
    rw [List.drop_eq_nil_of_le (by omega)]
    exact List.take_nil
  omega

/-- `DynamicStore.DropColumn`: read the schema, require the column to exist,
compute retained columns, create the temp table (`CREATE TABLE` with no
`IF NOT EXISTS` — it fails when the temp table is already there), batch-copy,
then `DROP TABLE` the source and rename temp to the source's name.  On a copy
error the function returns the wrapped error before the destructive steps,
leaving the source untouched and the partially filled temp table behind. -/
def dropColumn (fail : Nat → Option String) (db : DynDB)
    (tableName columnName : String) (batchSize : Nat) :
    DynDB × Option SvcError :=
  let columns := getTableSchema db tableName
  let columnExists := columns.any (fun col => goHasPre col (columnName ++ " "))
  let newColumns := columns.filter (fun col => !goHasPre col (columnName ++ " "))
  if !columnExists then
    (db, some (.plain ("column " ++ columnName ++ " does not exist in table "
      ++ tableName)))
  else
    let tempTable := tableName ++ "_temp"
    if (dbLookup db tempTable).isSome then
      (db, some (.plain "failed to create temp table"))
    else
      match copyLoop fail (tableRows db tableName)
          (getColumnNames newColumns) batchSize 0 [] with
      | (copied, none) =>
          ((db.filter (fun e => e.1 != tableName))
            ++ [(tableName, ⟨newColumns, copied⟩)], none)
      | (copiedSoFar, some msg) =>
          (db ++ [(tempTable, ⟨newColumns, copiedSoFar⟩)], some (.plain msg))

/-- Identifier well-formedness: the text holds no space character.  Column
names produced by the engine's DDL renderers satisfy this. -/
def spaceFree (s : String) : Prop :=
  ∀ ch ∈ s.data, ch ≠ ' '

instance (s : String) : Decidable (spaceFree s) :=
  inferInstanceAs (Decidable (∀ ch ∈ s.data, ch ≠ ' '))

/-! ## User store (`internal/store/user`) -/

/-- `v1alpha1.UserSpec`. -/
structure UserSpec where
  username : String
  email : String
  passwordHash : String
  roles : List String
deriving DecidableEq, Repr

/-- `v1alpha1.UserStatus`; `LastLogin` is a nilable time, timestamps are
opaque strings here. -/
structure UserStatus where
  active : Bool
  lastLogin : Option String
deriving DecidableEq, Repr

/-- The user domain object: ObjectMeta name and annotations, spec, status. -/
structure UserObj where
  name : String
  annotations : List (String × String)
  spec : UserSpec
  status : UserStatus
deriving DecidableEq, Repr

/-- `json.Marshal` of a list of plain strings (no escaping arises for the
inputs considered). -/
def marshalStringList (xs : List String) : String :=
  "[" ++ goJoin (xs.map (fun s => "\"" ++ s ++ "\"")) "," ++ "]"

/-- `json.Marshal` of a string-to-string map. -/
def marshalStringMap (m : List (String × String)) : String :=
  "\x7b" ++ goJoin (m.map (fun kv => "\"" ++ kv.1 ++ "\":\"" ++ kv.2 ++ "\"")) ","
    ++ "\x7d"

/-- The patch `Store.Update` builds: `username`, `email`, `updated_at` always;
`roles` only when the incoming list is non-empty; `last_login` only when the
incoming pointer is non-nil; `annotations` always (JSON-column form). -/
def buildUserUpdateData (now : String) (u : UserObj) : List (String × Value) :=
  [("username", some u.spec.username), ("email", some u.spec.email),
   ("updated_at", some now)]
  ++ (if u.spec.roles.length > 0 then
        [("roles", some (marshalStringList u.spec.roles))]
      else [])
  ++ (match u.status.lastLogin with
      | some tl => [("last_login", some tl)]
      | none => [])
  ++ [("annotations", some (marshalStringMap u.annotations))]

/-- `Store.Update`: read the existing row (propagating its error), run the two
read-then-compare uniqueness checks (`FindByUsername` / `FindByEmail`,
conflicting when the hit's id differs from the user's name), then
`DynamicUpdate("users", user.Name, data)`.  The stored `username` / `email`
are their text values. -/
def userStoreUpdate (now : String) (db : DynDB) (u : UserObj) :
    DynDB × Option SvcError :=
  match userGetRow db u.name with
  | .error e => (db, some e)
  | .ok existing =>
      let usernameConflict :=
        (rowGet existing "username").getD "" != u.spec.username &&
          (match findByUsernameRow db u.spec.username with
           | .ok conflict => (rowGet conflict "id").getD "" != u.name
           | .error _ => false)
      let emailConflict :=
        (rowGet existing "email").getD "" != u.spec.email &&
          (match findByEmailRow db u.spec.email with
           | .ok conflict => (rowGet conflict "id").getD "" != u.name
           | .error _ => false)
      if usernameConflict then
        (db, some (.plain ("username '" ++ u.spec.username ++ "' already exists")))
      else if emailConflict then
        (db, some (.plain ("email '" ++ u.spec.email ++ "' already exists")))
      else
        dynamicUpdateApply now db "users" u.name (buildUserUpdateData now u)

/-! ## Table manager (`pkg/store/sqlite`) -/

/-- `schema.FieldDef` from `pkg/store/schema`; the type is a string tag. -/
structure FieldDef where
  name : String
  ftype : String
  required : Bool
  unique : Bool
  defaultValue : Option String
deriving DecidableEq, Repr

/-- `schema.IndexDef`. -/
structure IndexDef where
  name : String
  fields : List String
  unique : Bool
deriving DecidableEq, Repr

/-- `schema.EntitySchema`: name, description, fields, indexes. -/
structure EntitySchema where
  name : String
  description : String
  fields : List FieldDef
  indexes : List IndexDef
deriving DecidableEq, Repr

/-- The type switch of `TableManager.generateColumnDef`: SQL type per field
type, `none` for the unsupported default branch. -/
def columnTypeSQL : String → Option String
  | "string" => some "TEXT"
  | "number" => some "NUMERIC"
  | "boolean" => some "BOOLEAN"
  | "timestamp" => some "TIMESTAMP"
  | "json" => some "TEXT"
  | "array" => some "TEXT"
  | _ => none

/-- `TableManager.generateColumnDef`: renders
`<name> <type>[ NOT NULL][ UNIQUE][ DEFAULT <v>]`; an unsupported field type
is `ErrInvalidInput`. -/
def generateColumnDef (f : FieldDef) : Except SvcError String :=
  match columnTypeSQL f.ftype with
  | none => .error (errInvalidInput ("unsupported field type: " ++ f.ftype))
  | some sqlType =>
      .ok (f.name ++ " " ++ sqlType
        ++ (if f.required then " NOT NULL" else "")
        ++ (if f.unique then " UNIQUE" else "")
        ++ (match f.defaultValue with
            | some v => " DEFAULT " ++ v
            | none => ""))

/-- `TableManager.generateCreateIndexSQL`. -/
def generateCreateIndexSQL (tableName : String) (idx : IndexDef) : String :=
  "CREATE " ++ (if idx.unique then "UNIQUE" else "") ++ " INDEX IF NOT EXISTS "
    ++ idx.name ++ " ON " ++ tableName ++ " (" ++ goJoin idx.fields ", " ++ ")"

/-- Rendering every schema field, failing on the first bad field (the loop in
`generateCreateTableSQL`). -/
def renderUserColumns : List FieldDef → Except SvcError (List String)
  | [] => .ok []
  | f :: rest =>
      match generateColumnDef f with
      | .error e => .error e
      | .ok c =>
          match renderUserColumns rest with
          | .error e => .error e
          | .ok cs => .ok (c :: cs)

/-- The five fixed leading column definitions of `generateCreateTableSQL`. -/
def coreColumnDefs : List String :=
  ["id TEXT PRIMARY KEY",
   "created_at TIMESTAMP NOT NULL DEFAULT CURRENT_TIMESTAMP",
   "updated_at TIMESTAMP NOT NULL DEFAULT CURRENT_TIMESTAMP",
   "deleted_at TIMESTAMP",
   "name TEXT UNIQUE NOT NULL"]

/-- A physical table as the manager builds it: the rendered column
definitions and the executed index statements. -/
structure PhysTable where
  columns : List String
  indexSQL : List String
deriving DecidableEq, Repr

/-- The manager's state: physical tables plus the `entity_schemas`
registry. -/
structure TMState where
  physical : List (String × PhysTable)
  registry : List EntitySchema
deriving DecidableEq, Repr

/-- `TableManager.TableExists`: whether the registry holds a row with the
name (a count over `entity_schemas`). -/
def tmTableExists (st : TMState) (name : String) : Bool :=
  st.registry.any (fun s => s.name == name)

/-- `TableManager.CreateTable`: `AlreadyExists` when the registry already has
the name; otherwise, in one transaction, run `CREATE TABLE IF NOT EXISTS`
(a no-op when a physical table of that name already exists), create every
index, and insert the registry row.  An error before or inside the
transaction leaves the state unchanged (rollback). -/
def tmCreateTable (st : TMState) (sch : EntitySchema) :
    TMState × Option SvcError :=
  if tmTableExists st sch.name then
    (st, some (errAlreadyExists ("table " ++ sch.name ++ " already exists")))
  else
    match renderUserColumns sch.fields with
    | .error e => (st, some e)
    | .ok cols =>
        let physical' :=
          if st.physical.any (fun e => e.1 == sch.name) then st.physical
          else st.physical ++
            [(sch.name, ⟨coreColumnDefs ++ cols,
               sch.indexes.map (generateCreateIndexSQL sch.name)⟩)]
        ({ physical := physical', registry := st.registry ++ [sch] }, none)

/-! ## Concrete fixtures for witnesses and counterexamples -/

/-- The specification's description of the decision (§4.6 of the spec): some
binding has a matching `User` subject and its referenced role resolves to a
role one of whose rules matches all three request attributes, each modulo the
`"*"` wildcard. -/
def specCheckAccess (getRole : String → Except SvcError Role)
    (bindings : List RoleBinding) (u : User) (v r g : String) : Prop :=
  ∃ b ∈ bindings,
    (∃ s ∈ b.subjects, s.kind = "User" ∧ s.name = u.name) ∧
    ∃ role, getRole b.roleRef.name = .ok role ∧
      ∃ rule ∈ role.rules,
        (g ∈ rule.apiGroups ∨ "*" ∈ rule.apiGroups) ∧
        (r ∈ rule.resources ∨ "*" ∈ rule.resources) ∧
        (v ∈ rule.verbs ∨ "*" ∈ rule.verbs)

/-- A store with one wildcard role bound to `alice`, for the witness. -/
def adminRole : Role :=
  { name := "admin", rules := [{ verbs := ["*"], resources := ["*"], apiGroups := ["*"] }] }

/-- Binding `b1` of subject `{User, alice}` to role `admin`. -/
def bindingAlice : RoleBinding :=
  { name := "b1", roleRef := { kind := "Role", name := "admin" },
    subjects := [{ kind := "User", name := "alice" }] }

/-- A concrete RBAC store: one binding, the role resolvable. -/
def storeEx : RBACStore :=
  { listRoleBindings := .ok [bindingAlice],
    getRole := fun n => if n == "admin" then .ok adminRole else .error errRoleNotFound }

/-- A store whose `GetRole` always fails with a storage error. -/
def storeStorageErr : RBACStore :=
  { listRoleBindings := .ok [bindingAlice],
    getRole := fun _ => .error (errStorageOperation "disk I/O error") }

/-- A builder holding one predicate and an empty args accumulator. -/
def qpEx : QueryParams :=
  { selectColumns := [], whereConds := [⟨"name", "=", "alice"⟩], orderBy := [],
    limit := 0, offset := 0, args := [] }

/-- The zero-value builder. -/
def qpZero : QueryParams :=
  { selectColumns := [], whereConds := [], orderBy := [], limit := 0,
    offset := 0, args := [] }

/-- A soft-deleted user row: `deleted_at` is set. -/
def deadRow : Row :=
  [("id", some "u1"), ("username", some "alice"),
   ("deleted_at", some "2025-01-01 00:00:00")]

/-- A database whose `users` table holds only the soft-deleted row. -/
def dbDead : DynDB :=
  [("users", ⟨["id TEXT", "username TEXT", "deleted_at TIMESTAMP"], [deadRow]⟩)]

/-- An alive user row. -/
def aliveRow : Row :=
  [("id", some "u1"), ("username", some "alice"), ("deleted_at", none)]

/-- A database whose `users` table holds the alive row `u1`. -/
def dbAlive : DynDB :=
  [("users", ⟨["id TEXT", "username TEXT", "deleted_at TIMESTAMP"], [aliveRow]⟩)]

/-- A stored user with one role, for the witness. -/
def userRowWithRole : Row :=
  [("id", some "u1"), ("username", some "alice"), ("email", some "a@x"),
   ("roles", some "[\"admin\"]"), ("last_login", some "2025-01-01 00:00:00"),
   ("deleted_at", none)]

/-- A database holding that user. -/
def dbWithRole : DynDB :=
  [("users", ⟨["id TEXT", "username TEXT", "email TEXT", "roles TEXT",
     "last_login TIMESTAMP", "deleted_at TIMESTAMP"], [userRowWithRole]⟩)]

/-- The incoming update object: empty roles, nil last login. -/
def userEmptyRoles : UserObj :=
  { name := "u1", annotations := [],
    spec := { username := "alice", email := "a@x",
              passwordHash := "h", roles := [] },
    status := { active := true, lastLogin := none } }

/-- A small concrete schema for the witness. -/
def schemaEx : EntitySchema :=
  { name := "gadgets", description := "gadgets table",
    fields := [{ name := "label", ftype := "string", required := true,
                 unique := false, defaultValue := none }],
    indexes := [{ name := "idx_gadgets_label", fields := ["label"],
                  unique := false }] }

/-- Two source rows for the column-drop examples. -/
def rowA : Row := [("id", some "1"), ("name", some "Alice"), ("email", some "a@x")]

/-- Second source row. -/
def rowB : Row := [("id", some "2"), ("name", some "Bob"), ("email", some "b@x")]

/-- A database with one three-column table `t` holding two rows. -/
def dbDropEx : DynDB :=
  [("t", ⟨["id TEXT", "name TEXT", "email TEXT"], [rowA, rowB]⟩)]

/-- An engine that never fails an exec. -/
def noFail : Nat → Option String := fun _ => none

/-- The database after dropping `email` from `t`. -/
def dbDroppedEx : DynDB :=
  [("t", ⟨["id TEXT", "name TEXT"],
    [[("id", some "1"), ("name", some "Alice")],
     [("id", some "2"), ("name", some "Bob")]]⟩)]

/-- An engine failing the very first copy exec. -/
def failAt0 : Nat → Option String := fun o => if o = 0 then some "disk full" else none

/-! ## Lemmas about strings and joins -/

theorem empty_append_str (s : String) : "" ++ s = s := by
  cases s
  rfl

theorem goJoin_append_singleton (xs : List String) (x sep : String) :
    goJoin (xs ++ [x]) sep =
      if xs.isEmpty then x else goJoin xs sep ++ sep ++ x := by
  cases xs with
  | nil => simp [goJoin]
  | cons hd tl =>
      simp only [goJoin, List.cons_append, List.foldl_append, List.foldl_cons,
        List.foldl_nil, List.isEmpty_cons]
      rfl

/-! ## Lemmas about the RBAC evaluator -/

theorem containsStr_iff (l : List String) (s : String) :
    containsStr l s = true ↔ s ∈ l := by
  unfold containsStr
  rw [List.any_eq_true]
  constructor
  · rintro ⟨x, hx, hxe⟩
    rw [beq_iff_eq] at hxe
    exact hxe ▸ hx
  · intro hs
    exact ⟨s, hs, by simp⟩

theorem ruleAllows_iff (rule : PolicyRule) (v r g : String) :
    ruleAllows rule v r g = true ↔
      (g ∈ rule.apiGroups ∨ "*" ∈ rule.apiGroups) ∧
      (r ∈ rule.resources ∨ "*" ∈ rule.resources) ∧
      (v ∈ rule.verbs ∨ "*" ∈ rule.verbs) := by
  have hb : ruleAllows rule v r g =
      ((containsStr rule.apiGroups g || containsStr rule.apiGroups "*") &&
       ((containsStr rule.resources r || containsStr rule.resources "*") &&
        (containsStr rule.verbs v || containsStr rule.verbs "*"))) := by
    unfold ruleAllows
    cases containsStr rule.apiGroups g <;>
      cases containsStr rule.apiGroups "*" <;>
        cases containsStr rule.resources r <;>
          cases containsStr rule.resources "*" <;> simp
  rw [hb]
  simp [Bool.and_eq_true, Bool.or_eq_true, containsStr_iff]

theorem mem_collectUserBindings {userName : String} {l : List RoleBinding}
    {b : RoleBinding} :
    b ∈ collectUserBindings userName l ↔
      b ∈ l ∧ ∃ s ∈ b.subjects, s.kind = "User" ∧ s.name = userName := by
  induction l with
  | nil => simp [collectUserBindings]
  | cons hd tl ih =>
      simp only [collectUserBindings, List.mem_append, List.mem_map,
        List.mem_filter, List.mem_cons, ih, Bool.and_eq_true, beq_iff_eq]
      constructor
      · rintro (⟨s, ⟨hs, hk, hn⟩, rfl⟩ | ⟨hb, s, hs, hk, hn⟩)
        · exact ⟨Or.inl rfl, s, hs, hk, hn⟩
        · exact ⟨Or.inr hb, s, hs, hk, hn⟩
      · rintro ⟨rfl | hb, s, hs, hk, hn⟩
        · exact Or.inl ⟨s, ⟨hs, hk, hn⟩, rfl⟩
        · exact Or.inr ⟨hb, s, hs, hk, hn⟩

theorem grantsVia_iff (store : RBACStore) (v r g : String) (b : RoleBinding) :
    grantsVia store v r g b = true ↔
      ∃ role, store.getRole b.roleRef.name = .ok role ∧
        ∃ rule ∈ role.rules,
          (g ∈ rule.apiGroups ∨ "*" ∈ rule.apiGroups) ∧
          (r ∈ rule.resources ∨ "*" ∈ rule.resources) ∧
          (v ∈ rule.verbs ∨ "*" ∈ rule.verbs) := by
  unfold grantsVia
  cases hr : store.getRole b.roleRef.name with
  | error e => simp [hr]
  | ok role => simp [hr, List.any_eq_true, ruleAllows_iff]

/-- Claim C1: when listing bindings succeeds, `CheckAccess` answers `true`
exactly when some role-binding carries a subject of kind `"User"` named like
the user and the role it references has a rule matching verb, resource and
API group (each directly or through `"*"`); otherwise it answers `false`.
The wildcard rule `verbs=["*"], resources=["*"], api_groups=["*"]` matches
every request, so it admits every request from bound subjects. -/
theorem checkAccess_decision_iff (store : RBACStore)
    (bindings : List RoleBinding) (u : User) (v r g : String)
    (h : store.listRoleBindings = .ok bindings) :
    (checkAccess store u v r g = .ok true ↔
      specCheckAccess store.getRole bindings u v r g) ∧
    (checkAccess store u v r g = .ok false ↔
      ¬ specCheckAccess store.getRole bindings u v r g) := by
  have hrun : checkAccess store u v r g =
      .ok ((collectUserBindings u.name bindings).any (grantsVia store v r g)) := by
    unfold checkAccess
    rw [h]
  have hiff : ((collectUserBindings u.name bindings).any (grantsVia store v r g) = true)
      ↔ specCheckAccess store.getRole bindings u v r g := by
    rw [List.any_eq_true]
    unfold specCheckAccess
    constructor
    · rintro ⟨b, hb, hgrants⟩
      obtain ⟨hbm, hs⟩ := mem_collectUserBindings.mp hb
      exact ⟨b, hbm, hs, (grantsVia_iff store v r g b).mp hgrants⟩
    · rintro ⟨b, hbm, hs, hrole⟩
      exact ⟨b, mem_collectUserBindings.mpr ⟨hbm, hs⟩,
        (grantsVia_iff store v r g b).mpr hrole⟩
  constructor
  · rw [hrun]
    simpa using hiff
  · rw [hrun]
    simp only [Except.ok.injEq]
    rw [← hiff]
    simp

/-- Witness for C1 at the concrete store: the hypothesis holds and the
decision characterisation follows; in particular the wildcard request
`(alice, delete, users, auth.service)` is admitted. -/
theorem checkAccess_decision_iff_witness :
    storeEx.listRoleBindings = .ok [bindingAlice] ∧
    ((checkAccess storeEx ⟨"alice"⟩ "delete" "users" "auth.service" = .ok true ↔
        specCheckAccess storeEx.getRole [bindingAlice] ⟨"alice"⟩ "delete" "users" "auth.service") ∧
      (checkAccess storeEx ⟨"alice"⟩ "delete" "users" "auth.service" = .ok false ↔
        ¬ specCheckAccess storeEx.getRole [bindingAlice] ⟨"alice"⟩ "delete" "users" "auth.service")) :=
  ⟨rfl, checkAccess_decision_iff storeEx [bindingAlice] ⟨"alice"⟩ "delete" "users" "auth.service" rfl⟩

/-- Claim C4, failing input: `alice` is bound by `b1`, fetching the referenced
role fails with the storage error `StorageOperation` — yet `CheckAccess`
swallows the error (`continue`) and returns the boolean decision `false`
instead of propagating the error. -/
theorem checkAccess_swallows_getRole_storage_error :
    checkAccess storeStorageErr ⟨"alice"⟩ "get" "users" "auth.service" = .ok false :=
  rfl

/-! ## Query builder: purity and operator validation -/

/-- Claim C7 counterexample: building is not referentially transparent —
`GetWhereClause` mutates the builder, so after one build the args accumulator
holds the predicate value and a second build from the returned builder
produces a different (duplicated) argument list. -/
theorem buildQuery_mutates_builder :
    (buildQuery "users" qpEx).2.2 ≠ qpEx ∧
    (buildQuery "users" qpEx).2.1 = ["alice"] ∧
    (buildQuery "users" ((buildQuery "users" qpEx).2.2)).2.1 = ["alice", "alice"] := by
  refine ⟨?_, rfl, rfl⟩
  decide

/-- Claim C7 amended: the SQL text is a pure function of the builder's input
fields — rebuilding from the builder a first build returned yields the same
SQL string — but `GetWhereClause` appends every predicate value to the `Args`
accumulator on each call, so building changes the builder's state and the
argument list of a second build is the first one with the predicate values
appended again. -/
theorem buildQuery_sql_pure_but_args_accumulate (tableName : String)
    (p : QueryParams) :
    (buildQuery tableName ((buildQuery tableName p).2.2)).1
        = (buildQuery tableName p).1 ∧
    ((buildQuery tableName p).2.2).args
        = p.args ++ p.whereConds.map (fun w => w.value) ∧
    (buildQuery tableName ((buildQuery tableName p).2.2)).2.1
        = (p.args ++ p.whereConds.map (fun w => w.value))
            ++ p.whereConds.map (fun w => w.value) := by
  by_cases hw : p.whereConds.isEmpty
  · have he : p.whereConds = [] := by
      simpa [List.isEmpty_iff] using hw
    simp [buildQuery, getWhereClause, getArgs, he]
  · simp [buildQuery, getWhereClause, getSelectClause, getOrderByClause,
      getLimitClause, getArgs, hw, List.append_assoc]

/-- Claim C8 counterexample: `AddWhere` accepts the operator `"FROBNICATE"`,
which is outside `{=, !=, <, <=, >, >=, LIKE, IN}` — no call fails, the
predicate is stored, and `GetWhereClause` splices the unknown operator
verbatim into the generated SQL text. -/
theorem addWhere_accepts_unknown_operator :
    (addWhere qpZero "age" "FROBNICATE" "3").whereConds
        = [⟨"age", "FROBNICATE", "3"⟩] ∧
    (getWhereClause (addWhere qpZero "age" "FROBNICATE" "3")).1
        = "age FROBNICATE ?" :=
  ⟨rfl, rfl⟩

/-! ## Soft delete and read paths -/

theorem rowGet_rowSet_self (r : Row) (c : String) (v : Value) :
    rowGet (rowSet r c v) c = v := by
  unfold rowGet rowSet
  rw [List.find?_cons_of_pos _ (by simp)]

theorem rowGet_rowSet_ne (r : Row) (c c' : String) (v : Value) (h : c' ≠ c) :
    rowGet (rowSet r c v) c' = rowGet r c' := by
  unfold rowGet rowSet
  rw [List.find?_cons_of_neg _ (by
    simp only [beq_iff_eq]
    exact fun he => h he.symm)]
  have hff : (r.filter (fun p => p.1 != c)).find? (fun p => p.1 == c')
      = r.find? (fun p => p.1 == c') := by
    induction r with
    | nil => rfl
    | cons e rest ih =>
        rw [List.filter_cons]
        by_cases hec : e.1 = c
        · rw [if_neg (by simp [hec]),
            List.find?_cons_of_neg _ (by
              simp only [beq_iff_eq, hec]
              exact fun hx => h hx.symm)]
          exact ih
        · rw [if_pos (by simp [hec])]
          by_cases heq : e.1 = c'
          · rw [List.find?_cons_of_pos _ (by simp [heq]),
              List.find?_cons_of_pos _ (by simp [heq])]
          · rw [List.find?_cons_of_neg _ (by simp [heq]),
              List.find?_cons_of_neg _ (by simp [heq])]
            exact ih
  rw [hff]

theorem dbLookup_dbSetRows (db : DynDB) (t : String) (rows' : List Row) :
    dbLookup (dbSetRows db t rows') t
      = (dbLookup db t).map (fun tab => ⟨tab.cols, rows'⟩) := by
  induction db with
  | nil => rfl
  | cons e rest ih =>
      unfold dbSetRows dbLookup
      rw [List.map_cons]
      by_cases he : e.1 = t
      · rw [if_pos (by simp [he]),
          List.find?_cons_of_pos _ (by simp [he]),
          List.find?_cons_of_pos _ (by simp [he])]
        rfl
      · rw [if_neg (by simp [he]),
          List.find?_cons_of_neg _ (by simp [he]),
          List.find?_cons_of_neg _ (by simp [he])]
        simpa only [dbSetRows, dbLookup] using ih

theorem tableRows_dbSetRows (db : DynDB) (t : String) (rows' : List Row)
    (tab : DynTable) (h : dbLookup db t = some tab) :
    tableRows (dbSetRows db t rows') t = rows' := by
  unfold tableRows
  rw [dbLookup_dbSetRows, h]
  rfl

/-- Every row `DynamicSelect` returns has `NULL` `deleted_at`. -/
theorem mem_dynamicSelect_alive {db : DynDB} {t : String}
    {conds : List (String × String)} {r : Row}
    (hr : r ∈ dynamicSelect db t conds) : rowGet r "deleted_at" = none := by
  unfold dynamicSelect at hr
  have hp := List.of_mem_filter hr
  rw [Bool.and_eq_true] at hp
  exact Option.isNone_iff_eq_none.mp hp.1

/-- Claim C6 counterexample: `SQLiteDynamicStore.Get` filters only on `id`,
so this read path returns the row `u1` even though its `deleted_at` is
non-null — not every read path hides soft-deleted rows. -/
theorem sqliteGet_returns_soft_deleted :
    sqliteGet dbDead "users" "u1" = .ok deadRow ∧
    rowGet deadRow "deleted_at" = some "2025-01-01 00:00:00" :=
  ⟨rfl, rfl⟩

/-- Claim C6 amended: soft-deleted rows are invisible to the internal dynamic
store's read paths — after `DynamicDelete(t, i)` succeeds, `DynamicSelect(t,
{id: i})` is empty and the user store's `Get` returns `ErrUserNotFound`, and
every row any `DynamicSelect` returns has `NULL` `deleted_at`; the gorm
store's `SQLiteDynamicStore.Get`, however, does not filter on `deleted_at`
and does return soft-deleted rows. -/
theorem dynamicDelete_invisible (now : String) (db db' : DynDB) (t i : String)
    (h : dynamicDelete now db t i = (db', none)) :
    dynamicSelect db' t [("id", i)] = [] ∧
    (t = "users" → userGetRow db' i = .error errUserNotFound) ∧
    ∀ conds r, r ∈ dynamicSelect db' t conds → rowGet r "deleted_at" = none := by
  have h' : (if ((tableRows db t).filter (fun r =>
        rowGet r "id" == some i && (rowGet r "deleted_at").isNone)).length = 0
      then ((db, some (.plain ("no record found with id: " ++ i))) : DynDB × Option SvcError)
      else (dbSetRows db t ((tableRows db t).map (fun r =>
        if rowGet r "id" == some i && (rowGet r "deleted_at").isNone
        then rowSet r "deleted_at" (some now) else r)), none)) = (db', none) := h
  by_cases h0 : ((tableRows db t).filter (fun r =>
      rowGet r "id" == some i && (rowGet r "deleted_at").isNone)).length = 0
  · rw [if_pos h0] at h'
    exact absurd (congrArg Prod.snd h') (by simp)
  · rw [if_neg h0] at h'
    have hdb' : db' = dbSetRows db t ((tableRows db t).map (fun r =>
        if rowGet r "id" == some i && (rowGet r "deleted_at").isNone
        then rowSet r "deleted_at" (some now) else r)) :=
      (congrArg Prod.fst h').symm
    obtain ⟨tab, htab⟩ : ∃ tab, dbLookup db t = some tab := by
      cases htab : dbLookup db t with
      | some tab => exact ⟨tab, rfl⟩
      | none => exact absurd (by simp [tableRows, htab]) h0
    have hrows' : tableRows db' t = (tableRows db t).map (fun r =>
        if rowGet r "id" == some i && (rowGet r "deleted_at").isNone
        then rowSet r "deleted_at" (some now) else r) := by
      rw [hdb']
      exact tableRows_dbSetRows db t _ tab htab
    have hsel : dynamicSelect db' t [("id", i)] = [] := by
      unfold dynamicSelect
      rw [hrows', List.filter_eq_nil_iff]
      intro a ha
      obtain ⟨r, hrmem, rfl⟩ := List.mem_map.mp ha
      by_cases hhit : (rowGet r "id" == some i && (rowGet r "deleted_at").isNone) = true
      · rw [if_pos hhit]
        simp [rowGet_rowSet_self]
      · rw [if_neg hhit]
        simp only [List.all_cons, List.all_nil, Bool.and_true, Bool.and_eq_true,
          beq_iff_eq, Option.isNone_iff_eq_none, not_and]
        intro hdel hid
        simp only [Bool.and_eq_true, beq_iff_eq, Option.isNone_iff_eq_none,
          not_and] at hhit
        exact hhit hid hdel
    refine ⟨hsel, ?_, fun conds r hr => mem_dynamicSelect_alive hr⟩
    intro ht
    subst ht
    unfold userGetRow
    rw [hsel]

/-- Witness for the amended C6: deleting `u1` succeeds on `dbAlive`, and the
invisibility conclusions follow at that concrete state. -/
theorem dynamicDelete_invisible_witness :
    dynamicDelete "2025-01-02 00:00:00" dbAlive "users" "u1"
        = ((dynamicDelete "2025-01-02 00:00:00" dbAlive "users" "u1").1, none) ∧
    (dynamicSelect (dynamicDelete "2025-01-02 00:00:00" dbAlive "users" "u1").1
        "users" [("id", "u1")] = [] ∧
      ("users" = "users" →
        userGetRow (dynamicDelete "2025-01-02 00:00:00" dbAlive "users" "u1").1
          "u1" = .error errUserNotFound) ∧
      ∀ conds r,
        r ∈ dynamicSelect
            (dynamicDelete "2025-01-02 00:00:00" dbAlive "users" "u1").1
            "users" conds →
          rowGet r "deleted_at" = none) :=
  ⟨by decide, dynamicDelete_invisible "2025-01-02 00:00:00" dbAlive _ "users" "u1"
    (by decide)⟩

/-- Claim C8 amended: the query builder performs no operator validation.
`AddWhere` appends any `(column, operator, value)` triple unchanged, and the
generated WHERE clause ends with the fragment `column ++ " " ++ op ++ " ?"`,
so the operator string reaches the SQL text verbatim whatever it is. -/
theorem addWhere_operator_reaches_sql (p : QueryParams) (col op v : String) :
    (addWhere p col op v).whereConds = p.whereConds ++ [⟨col, op, v⟩] ∧
    ∃ pre, (getWhereClause (addWhere p col op v)).1
        = pre ++ (col ++ " " ++ op ++ " ?") := by
  refine ⟨rfl, ?_⟩
  have hcl : (getWhereClause (addWhere p col op v)).1
      = goJoin ((p.whereConds.map (fun w => w.column ++ " " ++ w.op ++ " ?"))
          ++ [col ++ " " ++ op ++ " ?"]) " AND " := by
    simp [getWhereClause, addWhere, List.isEmpty_iff]
  rw [hcl, goJoin_append_singleton]
  by_cases hw : (p.whereConds.map
      (fun w => w.column ++ " " ++ w.op ++ " ?")).isEmpty = true
  · exact ⟨"", by rw [if_pos hw, empty_append_str]⟩
  · exact ⟨goJoin (p.whereConds.map (fun w => w.column ++ " " ++ w.op ++ " ?"))
        " AND " ++ " AND ", by rw [if_neg hw]⟩

/-! ## DynamicUpdate with an empty patch -/

/-- Claim C9, failing input: with an empty patch, `DynamicUpdate` renders the
statement `UPDATE users SET , updated_at = CURRENT_TIMESTAMP WHERE id = ?` —
the text between `SET` and the first comma is empty (the substring `"SET ,"`
appears), which is not a valid SET clause, so the engine rejects the
statement and the empty-patch update errors instead of succeeding. -/
theorem dynamicUpdateSQL_empty_patch_malformed :
    dynamicUpdateSQL "users" [] =
      "UPDATE users SET , updated_at = CURRENT_TIMESTAMP WHERE id = ?" ∧
    dynamicUpdateSQL "users" [] =
      "UPDATE users " ++ "SET ," ++ " updated_at = CURRENT_TIMESTAMP WHERE id = ?" :=
  ⟨by decide, by decide⟩

/-! ## Frame property of the user store's Update -/

theorem rowGet_foldl_rowSet_not_mem (data : List (String × Value)) (r : Row)
    (c : String) (hc : c ∉ data.map Prod.fst) :
    rowGet (data.foldl (fun acc cv => rowSet acc cv.1 cv.2) r) c = rowGet r c := by
  induction data generalizing r with
  | nil => rfl
  | cons kv rest ih =>
      simp only [List.map_cons, List.mem_cons, not_or] at hc
      rw [List.foldl_cons, ih (rowSet r kv.1 kv.2) hc.2,
        rowGet_rowSet_ne r kv.1 c kv.2 hc.1]

theorem dbLookup_dbSetRows_ne (db : DynDB) (t t' : String)
    (rows' : List Row) (h : t' ≠ t) :
    dbLookup (dbSetRows db t rows') t' = dbLookup db t' := by
  induction db with
  | nil => rfl
  | cons e rest ih =>
      unfold dbSetRows dbLookup
      rw [List.map_cons]
      by_cases het : e.1 = t
      · rw [if_pos (by simp [het]),
          List.find?_cons_of_neg _ (by simp [het]; exact fun hx => h (hx ▸ het.symm ▸ rfl)),
          List.find?_cons_of_neg _ (by
            simp only [beq_iff_eq, het]
            exact fun hx => h hx.symm)]
        simpa only [dbSetRows, dbLookup] using ih
      · rw [if_neg (by simp [het])]
        by_cases het' : e.1 = t'
        · rw [List.find?_cons_of_pos _ (by simp [het']),
            List.find?_cons_of_pos _ (by simp [het'])]
        · rw [List.find?_cons_of_neg _ (by simp [het']),
            List.find?_cons_of_neg _ (by simp [het'])]
          simpa only [dbSetRows, dbLookup] using ih

theorem tableRows_dbSetRows_self (db : DynDB) (t : String) (f : Row → Row) :
    tableRows (dbSetRows db t ((tableRows db t).map f)) t
      = (tableRows db t).map f := by
  cases h : dbLookup db t with
  | none =>
      unfold tableRows
      rw [dbLookup_dbSetRows, h]
      rfl
  | some tab =>
      unfold tableRows
      rw [dbLookup_dbSetRows, h]
      rfl

/-- Columns outside the patch (and different from `updated_at`) survive
`DynamicUpdate` unchanged, row by row, in every table. -/
theorem dynamicUpdateApply_preserves (now : String) (db : DynDB)
    (t id : String) (data : List (String × Value)) (c : String)
    (hc : c ∉ data.map Prod.fst) (hcu : c ≠ "updated_at") (tb : String)
    (i : Nat) :
    ((tableRows (dynamicUpdateApply now db t id data).1 tb)[i]?).map
        (fun r => rowGet r c)
      = ((tableRows db tb)[i]?).map (fun r => rowGet r c) := by
  by_cases hemp : data.isEmpty
  · have h1 : (dynamicUpdateApply now db t id data).1 = db := by
      unfold dynamicUpdateApply
      rw [if_pos hemp]
    rw [h1]
  · by_cases h0 : ((tableRows db t).filter
        (fun r => rowGet r "id" == some id)).length = 0
    · have h1 : (dynamicUpdateApply now db t id data).1 = db := by
        unfold dynamicUpdateApply
        rw [if_neg hemp, if_pos h0]
      rw [h1]
    · have h1 : (dynamicUpdateApply now db t id data).1
          = dbSetRows db t ((tableRows db t).map (fun r =>
              if rowGet r "id" == some id then
                rowSet (data.foldl (fun acc cv => rowSet acc cv.1 cv.2) r)
                  "updated_at" (some now)
              else r)) := by
        unfold dynamicUpdateApply
        rw [if_neg hemp, if_neg h0]
      rw [h1]
      by_cases htb : tb = t
      · subst htb
        rw [tableRows_dbSetRows_self, List.getElem?_map]
        cases hri : (tableRows db tb)[i]? with
        | none => rfl
        | some r =>
            simp only [Option.map_some']
            congr 1
            by_cases hhit : (rowGet r "id" == some id) = true
            · rw [if_pos hhit,
                rowGet_rowSet_ne _ _ _ _ hcu,
                rowGet_foldl_rowSet_not_mem data r c hc]
            · rw [if_neg hhit]
      · unfold tableRows
        rw [dbLookup_dbSetRows_ne db t tb _ htb]

/-- Claim C10: when the incoming user object carries an empty `Spec.Roles`,
the `roles` column is omitted from the patch `Store.Update` builds (and a nil
`LastLogin` omits `last_login`), so the update leaves every row's stored
`roles` and `last_login` values unchanged — stored roles are never removed by
such an update. -/
theorem userStoreUpdate_preserves_roles (now : String) (db : DynDB)
    (u : UserObj) (hroles : u.spec.roles = [])
    (hlast : u.status.lastLogin = none) :
    "roles" ∉ (buildUserUpdateData now u).map Prod.fst ∧
    "last_login" ∉ (buildUserUpdateData now u).map Prod.fst ∧
    ∀ (tb : String) (i : Nat),
      ((tableRows (userStoreUpdate now db u).1 tb)[i]?).map
          (fun r => rowGet r "roles")
        = ((tableRows db tb)[i]?).map (fun r => rowGet r "roles") ∧
      ((tableRows (userStoreUpdate now db u).1 tb)[i]?).map
          (fun r => rowGet r "last_login")
        = ((tableRows db tb)[i]?).map (fun r => rowGet r "last_login") := by
  have hkeys : (buildUserUpdateData now u).map Prod.fst
      = ["username", "email", "updated_at", "annotations"] := by
    simp [buildUserUpdateData, hroles, hlast]
  refine ⟨by simp [hkeys], by simp [hkeys], fun tb i => ?_⟩
  unfold userStoreUpdate
  cases hget : userGetRow db u.name with
  | error e => exact ⟨rfl, rfl⟩
  | ok existing =>
      simp only
      by_cases hu : ((rowGet existing "username").getD "" != u.spec.username &&
          (match findByUsernameRow db u.spec.username with
           | .ok conflict => (rowGet conflict "id").getD "" != u.name
           | .error _ => false)) = true
      · rw [if_pos hu]
        exact ⟨rfl, rfl⟩
      · rw [if_neg hu]
        by_cases he : ((rowGet existing "email").getD "" != u.spec.email &&
            (match findByEmailRow db u.spec.email with
             | .ok conflict => (rowGet conflict "id").getD "" != u.name
             | .error _ => false)) = true
        · rw [if_pos he]
          exact ⟨rfl, rfl⟩
        · rw [if_neg he]
          exact ⟨dynamicUpdateApply_preserves now db "users" u.name _ "roles"
              (by simp [hkeys]) (by decide) tb i,
            dynamicUpdateApply_preserves now db "users" u.name _ "last_login"
              (by simp [hkeys]) (by decide) tb i⟩

/-- Witness for C10 at the concrete state: the hypotheses hold and the
frame conclusions follow. -/
theorem userStoreUpdate_preserves_roles_witness :
    userEmptyRoles.spec.roles = [] ∧
    userEmptyRoles.status.lastLogin = none ∧
    ("roles" ∉ (buildUserUpdateData "t1" userEmptyRoles).map Prod.fst ∧
     "last_login" ∉ (buildUserUpdateData "t1" userEmptyRoles).map Prod.fst ∧
     ∀ (tb : String) (i : Nat),
       ((tableRows (userStoreUpdate "t1" dbWithRole userEmptyRoles).1 tb)[i]?).map
           (fun r => rowGet r "roles")
         = ((tableRows dbWithRole tb)[i]?).map (fun r => rowGet r "roles") ∧
       ((tableRows (userStoreUpdate "t1" dbWithRole userEmptyRoles).1 tb)[i]?).map
           (fun r => rowGet r "last_login")
         = ((tableRows dbWithRole tb)[i]?).map (fun r => rowGet r "last_login")) :=
  ⟨rfl, rfl,
    userStoreUpdate_preserves_roles "t1" dbWithRole userEmptyRoles rfl rfl⟩

/-! ## Table creation -/

/-- Claim C5: when no registry row named `sch.name` exists (and no stray
physical table), a successful `CreateTable` creates the physical table whose
columns are the core column definitions followed by the rendered schema
columns, records every index, and inserts the registry row, so `TableExists`
becomes true; an immediately repeated `CreateTable` returns `AlreadyExists`
and leaves the state unchanged. -/
theorem tmCreateTable_spec (st st' : TMState) (sch : EntitySchema)
    (hphys : st.physical.any (fun e => e.1 == sch.name) = false)
    (hok : tmCreateTable st sch = (st', none)) :
    tmTableExists st' sch.name = true ∧
    sch ∈ st'.registry ∧
    (∃ cols, renderUserColumns sch.fields = .ok cols ∧
      (sch.name, (⟨coreColumnDefs ++ cols,
        sch.indexes.map (generateCreateIndexSQL sch.name)⟩ : PhysTable))
        ∈ st'.physical) ∧
    tmCreateTable st' sch =
      (st', some (errAlreadyExists ("table " ++ sch.name ++ " already exists"))) := by
  unfold tmCreateTable at hok
  by_cases hex : tmTableExists st sch.name = true
  · rw [if_pos hex] at hok
    exact absurd (congrArg Prod.snd hok) (by simp)
  · rw [if_neg hex] at hok
    cases hr : renderUserColumns sch.fields with
    | error e =>
        rw [hr] at hok
        exact absurd (congrArg Prod.snd hok) (by simp)
    | ok cols =>
        rw [hr] at hok
        simp only [hphys, Bool.false_eq_true, if_false] at hok
        have hst' : st' = TMState.mk
            (st.physical ++ [(sch.name, PhysTable.mk (coreColumnDefs ++ cols)
              (sch.indexes.map (generateCreateIndexSQL sch.name)))])
            (st.registry ++ [sch]) :=
          (congrArg Prod.fst hok).symm
        have hexists : tmTableExists st' sch.name = true := by
          rw [hst']
          simp [tmTableExists]
        refine ⟨hexists, ?_, ⟨cols, rfl, ?_⟩, ?_⟩
        · rw [hst']
          simp
        · rw [hst']
          simp
        · unfold tmCreateTable
          rw [if_pos hexists]

/-- Witness for C5 from the empty manager state. -/
theorem tmCreateTable_spec_witness :
    (TMState.mk [] []).physical.any (fun e => e.1 == schemaEx.name) = false ∧
    tmCreateTable (TMState.mk [] []) schemaEx
        = ((tmCreateTable (TMState.mk [] []) schemaEx).1, none) ∧
    (tmTableExists (tmCreateTable (TMState.mk [] []) schemaEx).1
        schemaEx.name = true ∧
      schemaEx ∈ ((tmCreateTable (TMState.mk [] []) schemaEx).1).registry ∧
      (∃ cols, renderUserColumns schemaEx.fields = .ok cols ∧
        (schemaEx.name, (⟨coreColumnDefs ++ cols,
          schemaEx.indexes.map (generateCreateIndexSQL schemaEx.name)⟩ : PhysTable))
          ∈ ((tmCreateTable (TMState.mk [] []) schemaEx).1).physical) ∧
      tmCreateTable (tmCreateTable (TMState.mk [] []) schemaEx).1 schemaEx =
        ((tmCreateTable (TMState.mk [] []) schemaEx).1,
         some (errAlreadyExists ("table " ++ schemaEx.name ++ " already exists")))) :=
  ⟨rfl, by decide,
    tmCreateTable_spec (TMState.mk [] []) _ schemaEx rfl (by decide)⟩

/-! ## Lemmas about the batch-copy loop -/

theorem copyLoop_fail_eq (fail : Nat → Option String) (src : List Row)
    (names : List String) (b o : Nat) (acc : List Row) (m : String)
    (hf : fail o = some m) :
    copyLoop fail src names b o acc
      = (acc, some ("failed to copy data in batches: " ++ m)) := by
  unfold copyLoop
  rw [hf]

theorem copyLoop_stop (fail : Nat → Option String) (src : List Row)
    (names : List String) (b o : Nat) (acc : List Row)
    (hf : fail o = none)
    (he : ((src.drop o).take b).map (projectRow names) = []) :
    copyLoop fail src names b o acc = (acc, none) := by
  unfold copyLoop
  rw [hf]
  exact dif_pos he

theorem copyLoop_next (fail : Nat → Option String) (src : List Row)
    (names : List String) (b o : Nat) (acc : List Row)
    (hf : fail o = none)
    (hne : ((src.drop o).take b).map (projectRow names) ≠ []) :
    copyLoop fail src names b o acc
      = copyLoop fail src names b (o + b)
          (acc ++ ((src.drop o).take b).map (projectRow names)) := by
  conv_lhs => rw [copyLoop]
  rw [hf]
  exact dif_neg hne

theorem copyLoop_ok_res (fail : Nat → Option String) (src : List Row)
    (names : List String) (b : Nat) (hb : 0 < b) :
    ∀ (k o : Nat) (acc res : List Row), src.length - o ≤ k →
      copyLoop fail src names b o acc = (res, none) →
      res = acc ++ ((src.drop o).map (projectRow names)) := by
  intro k
  induction k with
  | zero =>
      intro o acc res hk h
      have hdrop : src.drop o = [] := List.drop_eq_nil_of_le (by omega)
      cases hf : fail o with
      | some m =>
          rw [copyLoop_fail_eq fail src names b o acc m hf] at h
          exact absurd (congrArg Prod.snd h) (by simp)
      | none =>
          rw [copyLoop_stop fail src names b o acc hf
            (by rw [hdrop, List.take_nil]; rfl)] at h
          have hres : res = acc := (congrArg Prod.fst h).symm
          rw [hres, hdrop]
          simp
  | succ k ih =>
      intro o acc res hk h
      cases hf : fail o with
      | some m =>
          rw [copyLoop_fail_eq fail src names b o acc m hf] at h
          exact absurd (congrArg Prod.snd h) (by simp)
      | none =>
          by_cases hne : ((src.drop o).take b).map (projectRow names) = []
          · rw [copyLoop_stop fail src names b o acc hf hne] at h
            have hres : res = acc := (congrArg Prod.fst h).symm
            have htake : (src.drop o).take b = [] := by
              exact List.map_eq_nil_iff.mp hne
            have hdrop : src.drop o = [] := by
              rcases List.take_eq_nil_iff.mp htake with hb0 | hd
              · omega
              · exact hd
            rw [hres, hdrop]
            simp
          · have hlt : o < src.length := by
              by_contra hge
              exact hne (by
                rw [List.drop_eq_nil_of_le (by omega), List.take_nil]
                rfl)
            rw [copyLoop_next fail src names b o acc hf hne] at h
            have hres := ih (o + b) (acc ++ ((src.drop o).take b).map (projectRow names))
              res (by omega) h
            rw [hres, List.append_assoc]
            congr 1
            rw [← List.map_append]
            congr 1
            rw [← List.drop_drop, List.take_append_drop]

/-! ## Lemmas about database lookups after appends -/

theorem dbLookup_filter_append_self (db : DynDB) (t : String) (tab : DynTable) :
    dbLookup ((db.filter (fun e => e.1 != t)) ++ [(t, tab)]) t = some tab := by
  induction db with
  | nil =>
      unfold dbLookup
      rw [List.filter_nil, List.nil_append,
        List.find?_cons_of_pos _ (by simp)]
      rfl
  | cons e rest ih =>
      by_cases he : e.1 = t
      · rw [List.filter_cons_of_neg (by simp [he])]
        exact ih
      · rw [List.filter_cons_of_pos (by simp [he]), List.cons_append]
        unfold dbLookup
        rw [List.find?_cons_of_neg _ (by simp [he])]
        simpa only [dbLookup] using ih

theorem dbLookup_append_single_ne (db : DynDB) (k t : String) (tab : DynTable)
    (hkt : k ≠ t) :
    dbLookup (db ++ [(k, tab)]) t = dbLookup db t := by
  induction db with
  | nil =>
      unfold dbLookup
      rw [List.nil_append, List.find?_cons_of_neg _ (by simp [hkt])]
  | cons e rest ih =>
      rw [List.cons_append]
      unfold dbLookup
      by_cases he : e.1 = t
      · rw [List.find?_cons_of_pos _ (by simp [he]),
          List.find?_cons_of_pos _ (by simp [he])]
      · rw [List.find?_cons_of_neg _ (by simp [he]),
          List.find?_cons_of_neg _ (by simp [he])]
        simpa only [dbLookup] using ih

theorem dbLookup_append_single_self (db : DynDB) (k : String) (tab : DynTable)
    (hnone : dbLookup db k = none) :
    dbLookup (db ++ [(k, tab)]) k = some tab := by
  induction db with
  | nil =>
      unfold dbLookup
      rw [List.nil_append, List.find?_cons_of_pos _ (by simp)]
      rfl
  | cons e rest ih =>
      by_cases he : e.1 = k
      · exfalso
        unfold dbLookup at hnone
        rw [List.find?_cons_of_pos _ (by simp [he])] at hnone
        exact absurd hnone (by simp)
      · have hrest : dbLookup rest k = none := by
          unfold dbLookup at hnone
          rw [List.find?_cons_of_neg _ (by simp [he])] at hnone
          simpa only [dbLookup] using hnone
        rw [List.cons_append]
        unfold dbLookup
        rw [List.find?_cons_of_neg _ (by simp [he])]
        simpa only [dbLookup] using ih hrest

theorem ne_append_temp (t : String) : t ≠ t ++ "_temp" := by
  intro h
  have hlen := congrArg String.length h
  rw [String.length_append] at hlen
  have h5 : ("_temp" : String).length = 5 := by decide
  omega

/-! ## Lemmas about rendered column names -/

theorem takeWhile_append_cons (p : Char → Bool) (l₁ : List Char) (x : Char)
    (l₂ : List Char) (h1 : ∀ a ∈ l₁, p a = true) (h2 : p x = false) :
    (l₁ ++ x :: l₂).takeWhile p = l₁ := by
  induction l₁ with
  | nil => simp [List.takeWhile_cons, h2]
  | cons a l ih =>
      have ha : p a = true := h1 a (by simp)
      simp [List.takeWhile_cons, ha, ih (fun b hb => h1 b (by simp [hb]))]

theorem colName_render (n ty : String) (hn : spaceFree n) :
    colName (n ++ " " ++ ty) = n := by
  unfold colName
  have hdata : (n ++ " " ++ ty).data = n.data ++ ' ' :: ty.data := by
    rw [String.data_append, String.data_append, List.append_assoc]
    rfl
  rw [hdata, takeWhile_append_cons _ _ _ _
    (fun a ha => by simpa using hn a ha) (by decide)]

theorem prefix_marker_aux (c' : List Char) : ∀ (n' t' : List Char),
    (∀ a ∈ c', a ≠ ' ') → (∀ a ∈ n', a ≠ ' ') →
    ((c' ++ [' ']) <+: (n' ++ ' ' :: t') ↔ c' = n') := by
  induction c' with
  | nil =>
      intro n' t' _ hn
      cases n' with
      | nil => simp
      | cons b n₁ =>
          have hb : b ≠ ' ' := hn b (by simp)
          simp only [List.nil_append, List.cons_append]
          constructor
          · intro hpre
            rw [show ([' '] : List Char) = ' ' :: [] from rfl,
              List.cons_prefix_cons] at hpre
            exact absurd hpre.1.symm hb
          · intro he
            exact absurd he (by simp)
  | cons a c₁ ih =>
      intro n' t' hc hn
      cases n' with
      | nil =>
          have ha : a ≠ ' ' := hc a (by simp)
          simp only [List.cons_append, List.nil_append]
          constructor
          · intro hpre
            rw [List.cons_prefix_cons] at hpre
            exact absurd hpre.1 ha
          · intro he
            exact absurd he (by simp)
      | cons b n₁ =>
          simp only [List.cons_append, List.cons_prefix_cons]
          rw [ih n₁ t' (fun x hx => hc x (by simp [hx]))
            (fun x hx => hn x (by simp [hx]))]
          simp

theorem goHasPre_marker (n ty c : String) (hn : spaceFree n) (hc : spaceFree c) :
    (goHasPre (n ++ " " ++ ty) (c ++ " ") = true) ↔ c = n := by
  unfold goHasPre
  rw [ List.isPrefixOf_iff_prefix, String.data_append, String.data_append,
    String.data_append, List.append_assoc, List.singleton_append]
  rw [show (" " : String).data = [' '] from rfl,
    prefix_marker_aux c.data n.data ty.data hc hn]
  constructor
  · intro h
    exact congrArg String.mk h
  · intro h
    rw [h]

theorem rowGet_projectRow_mem (names : List String) (r : Row) (nm : String)
    (h : nm ∈ names) : rowGet (projectRow names r) nm = rowGet r nm := by
  induction names with
  | nil => cases h
  | cons m ms ih =>
      show rowGet ((m, rowGet r m) :: projectRow ms r) nm = rowGet r nm
      by_cases hm : nm = m
      · subst hm
        unfold rowGet
        rw [List.find?_cons_of_pos _ (by simp)]
      · have hms : nm ∈ ms := by
          rcases List.mem_cons.mp h with h1 | h2
          · exact absurd h1 hm
          · exact h2
        unfold rowGet
        rw [List.find?_cons_of_neg _ (by
          simp only [beq_iff_eq]
          exact fun hx => hm hx.symm)]
        simpa only [rowGet] using ih hms

/-- Claim C2: when `DropColumn(t, c, b)` succeeds with batch size `b > 0` (on
a well-formed reported schema of space-free column names), the reported
schema of `t` afterwards has no column named `c`, the row count of `t` is
preserved, every surviving column's value is preserved row by row, and the
batch-copy loop advances its offset by `b` per successful non-empty batch and
stops exactly when an execution reports zero rows affected. -/
theorem dropColumn_ok_spec (fail : Nat → Option String) (db db' : DynDB)
    (t c : String) (b : Nat) (hb : 0 < b)
    (hwf : ∀ e ∈ getTableSchema db t, ∃ n ty, e = n ++ " " ++ ty ∧ spaceFree n)
    (hc : spaceFree c)
    (hok : dropColumn fail db t c b = (db', none)) :
    (∀ e ∈ getTableSchema db' t, colName e ≠ c) ∧
    (tableRows db' t).length = (tableRows db t).length ∧
    (∀ (i : Nat), ∀ nm ∈ getColumnNames (getTableSchema db' t),
      ((tableRows db' t)[i]?).map (fun r => rowGet r nm)
        = ((tableRows db t)[i]?).map (fun r => rowGet r nm)) ∧
    (∀ (o : Nat) (acc : List Row), fail o = none →
      ((((tableRows db t).drop o).take b).map
          (projectRow (getColumnNames (getTableSchema db' t))) = [] →
        copyLoop fail (tableRows db t)
          (getColumnNames (getTableSchema db' t)) b o acc = (acc, none)) ∧
      ((((tableRows db t).drop o).take b).map
          (projectRow (getColumnNames (getTableSchema db' t))) ≠ [] →
        copyLoop fail (tableRows db t)
            (getColumnNames (getTableSchema db' t)) b o acc
          = copyLoop fail (tableRows db t)
              (getColumnNames (getTableSchema db' t)) b (o + b)
              (acc ++ (((tableRows db t).drop o).take b).map
                (projectRow (getColumnNames (getTableSchema db' t)))))) := by
  have hok' : (if !((getTableSchema db t).any (fun col => goHasPre col (c ++ " "))) then
      ((db, some (.plain ("column " ++ c ++ " does not exist in table " ++ t)))
        : DynDB × Option SvcError)
    else if (dbLookup db (t ++ "_temp")).isSome then
      (db, some (.plain "failed to create temp table"))
    else
      match copyLoop fail (tableRows db t)
          (getColumnNames ((getTableSchema db t).filter
            (fun col => !goHasPre col (c ++ " ")))) b 0 [] with
      | (copied, none) =>
          ((db.filter (fun e => e.1 != t))
            ++ [(t, ⟨(getTableSchema db t).filter
                  (fun col => !goHasPre col (c ++ " ")), copied⟩)], none)
      | (copiedSoFar, some msg) =>
          (db ++ [(t ++ "_temp", ⟨(getTableSchema db t).filter
              (fun col => !goHasPre col (c ++ " ")), copiedSoFar⟩)],
           some (.plain msg))) = (db', none) := hok
  cases hexb : (getTableSchema db t).any (fun col => goHasPre col (c ++ " ")) with
  | false =>
      rw [if_pos (by simp [hexb])] at hok'
      exact absurd (congrArg Prod.snd hok') (by simp)
  | true =>
      rw [if_neg (by simp [hexb])] at hok'
      cases htmpb : (dbLookup db (t ++ "_temp")).isSome with
      | true =>
          rw [if_pos htmpb] at hok'
          exact absurd (congrArg Prod.snd hok') (by simp)
      | false =>
          rw [if_neg (by simp [htmpb])] at hok'
          rcases hcopy : copyLoop fail (tableRows db t)
              (getColumnNames ((getTableSchema db t).filter
                (fun col => !goHasPre col (c ++ " ")))) b 0 []
            with ⟨copied, eopt⟩
          rw [hcopy] at hok'
          cases eopt with
          | some msg => exact absurd (congrArg Prod.snd hok') (by simp)
          | none =>
              have hdb' : db' = (db.filter (fun e => e.1 != t))
                  ++ [(t, ⟨(getTableSchema db t).filter
                      (fun col => !goHasPre col (c ++ " ")), copied⟩)] :=
                (congrArg Prod.fst hok').symm
              have hschema : getTableSchema db' t
                  = (getTableSchema db t).filter
                      (fun col => !goHasPre col (c ++ " ")) := by
                unfold getTableSchema
                rw [hdb', dbLookup_filter_append_self]
                rfl
              have htrows : tableRows db' t = copied := by
                unfold tableRows
                rw [hdb', dbLookup_filter_append_self]
              have hcopied : copied = (tableRows db t).map
                  (projectRow (getColumnNames ((getTableSchema db t).filter
                    (fun col => !goHasPre col (c ++ " "))))) := by
                have hres := copyLoop_ok_res fail (tableRows db t)
                  (getColumnNames ((getTableSchema db t).filter
                    (fun col => !goHasPre col (c ++ " ")))) b hb
                  (tableRows db t).length 0 [] copied (by omega) hcopy
                simpa using hres
              refine ⟨?_, ?_, ?_, ?_⟩
              · rw [hschema]
                intro e he
                obtain ⟨he1, he2⟩ := List.mem_filter.mp he
                obtain ⟨n, ty, rfl, hn⟩ := hwf e he1
                rw [colName_render n ty hn]
                intro hcn
                have : goHasPre (n ++ " " ++ ty) (c ++ " ") = true :=
                  (goHasPre_marker n ty c hn hc).mpr hcn.symm
                rw [this] at he2
                exact absurd he2 (by simp)
              · rw [htrows, hcopied]
                exact List.length_map _ _
              · intro i nm hnm
                rw [hschema] at hnm
                rw [htrows, hcopied, List.getElem?_map]
                cases hri : (tableRows db t)[i]? with
                | none => rfl
                | some r =>
                    simp only [Option.map_some']
                    congr 1
                    exact rowGet_projectRow_mem _ r nm hnm
              · intro o acc hf
                rw [hschema]
                exact ⟨fun he => copyLoop_stop fail (tableRows db t) _ b o acc hf he,
                  fun hne => copyLoop_next fail (tableRows db t) _ b o acc hf hne⟩

/-- Witness for C2: dropping `email` with batch size 1 succeeds on the
two-row table, and the conclusions follow there. -/
theorem dropColumn_ok_spec_witness :
    ((0 : Nat) < 1 ∧
     (∀ e ∈ getTableSchema dbDropEx "t", ∃ n ty, e = n ++ " " ++ ty ∧ spaceFree n) ∧
     spaceFree "email" ∧
     dropColumn noFail dbDropEx "t" "email" 1 = (dbDroppedEx, none)) ∧
    ((∀ e ∈ getTableSchema dbDroppedEx "t", colName e ≠ "email") ∧
     (tableRows dbDroppedEx "t").length = (tableRows dbDropEx "t").length ∧
     (∀ (i : Nat), ∀ nm ∈ getColumnNames (getTableSchema dbDroppedEx "t"),
       ((tableRows dbDroppedEx "t")[i]?).map (fun r => rowGet r nm)
         = ((tableRows dbDropEx "t")[i]?).map (fun r => rowGet r nm)) ∧
     (∀ (o : Nat) (acc : List Row), noFail o = none →
       ((((tableRows dbDropEx "t").drop o).take 1).map
           (projectRow (getColumnNames (getTableSchema dbDroppedEx "t"))) = [] →
         copyLoop noFail (tableRows dbDropEx "t")
           (getColumnNames (getTableSchema dbDroppedEx "t")) 1 o acc = (acc, none)) ∧
       ((((tableRows dbDropEx "t").drop o).take 1).map
           (projectRow (getColumnNames (getTableSchema dbDroppedEx "t"))) ≠ [] →
         copyLoop noFail (tableRows dbDropEx "t")
             (getColumnNames (getTableSchema dbDroppedEx "t")) 1 o acc
           = copyLoop noFail (tableRows dbDropEx "t")
               (getColumnNames (getTableSchema dbDroppedEx "t")) 1 (o + 1)
               (acc ++ (((tableRows dbDropEx "t").drop o).take 1).map
                 (projectRow (getColumnNames (getTableSchema dbDroppedEx "t"))))))) := by
  have hwfEx : ∀ e ∈ getTableSchema dbDropEx "t",
      ∃ n ty, e = n ++ " " ++ ty ∧ spaceFree n := by
    intro e he
    have : e = "id TEXT" ∨ e = "name TEXT" ∨ e = "email TEXT" := by
      simpa [getTableSchema, dbLookup, dbDropEx] using he
    rcases this with rfl | rfl | rfl
    · exact ⟨"id", "TEXT", by decide, by decide⟩
    · exact ⟨"name", "TEXT", by decide, by decide⟩
    · exact ⟨"email", "TEXT", by decide, by decide⟩
  have hcl : copyLoop noFail (tableRows dbDropEx "t")
      (getColumnNames ((getTableSchema dbDropEx "t").filter
        (fun col => !goHasPre col ("email" ++ " ")))) 1 0 []
      = ([[("id", some "1"), ("name", some "Alice")],
          [("id", some "2"), ("name", some "Bob")]], none) := by
    rw [copyLoop_next _ _ _ 1 0 [] rfl (by decide),
      copyLoop_next _ _ _ 1 1 _ rfl (by decide),
      copyLoop_stop _ _ _ 1 2 _ rfl (by decide)]
    decide
  have hok : dropColumn noFail dbDropEx "t" "email" 1 = (dbDroppedEx, none) := by
    have hbody : dropColumn noFail dbDropEx "t" "email" 1
        = (if !((getTableSchema dbDropEx "t").any
              (fun col => goHasPre col ("email" ++ " "))) then
            ((dbDropEx, some (.plain ("column " ++ "email"
              ++ " does not exist in table " ++ "t"))) : DynDB × Option SvcError)
          else if (dbLookup dbDropEx ("t" ++ "_temp")).isSome then
            (dbDropEx, some (.plain "failed to create temp table"))
          else
            match copyLoop noFail (tableRows dbDropEx "t")
                (getColumnNames ((getTableSchema dbDropEx "t").filter
                  (fun col => !goHasPre col ("email" ++ " ")))) 1 0 [] with
            | (copied, none) =>
                ((dbDropEx.filter (fun e => e.1 != "t"))
                  ++ [("t", ⟨(getTableSchema dbDropEx "t").filter
                        (fun col => !goHasPre col ("email" ++ " ")), copied⟩)], none)
            | (copiedSoFar, some msg) =>
                (dbDropEx ++ [("t" ++ "_temp",
                  ⟨(getTableSchema dbDropEx "t").filter
                    (fun col => !goHasPre col ("email" ++ " ")), copiedSoFar⟩)],
                 some (.plain msg))) := rfl
    rw [hbody, if_neg (by decide), if_neg (by decide), hcl]
    decide
  exact ⟨⟨Nat.one_pos, hwfEx, by decide, hok⟩,
    dropColumn_ok_spec noFail dbDropEx dbDroppedEx "t" "email" 1
      Nat.one_pos hwfEx (by decide) hok⟩

/-- Claim C3 amended: when a batch-copy execution inside `DropColumn` fails,
the function returns the wrapped copy error — a plain `fmt.Errorf` error, not
the structured `StorageOperation` status error — before the destructive
`DROP TABLE`/`RENAME` steps, the source table's schema and rows are left
untouched, and a retry is diagnosed: it fails with the temp-table creation
error, because the partially filled `<t>_temp` table was left behind. -/
theorem dropColumn_copy_error_spec (fail : Nat → Option String) (db : DynDB)
    (t c : String) (b : Nat)
    (hex : (getTableSchema db t).any (fun col => goHasPre col (c ++ " ")) = true)
    (htmp : dbLookup db (t ++ "_temp") = none)
    (copiedSoFar : List Row) (msg : String)
    (hcopy : copyLoop fail (tableRows db t)
        (getColumnNames ((getTableSchema db t).filter
          (fun col => !goHasPre col (c ++ " ")))) b 0 []
      = (copiedSoFar, some msg)) :
    dropColumn fail db t c b
      = (db ++ [(t ++ "_temp",
          ⟨(getTableSchema db t).filter (fun col => !goHasPre col (c ++ " ")),
           copiedSoFar⟩)], some (.plain msg)) ∧
    (SvcError.plain msg).isStatus = false ∧
    dbLookup (dropColumn fail db t c b).1 t = dbLookup db t ∧
    ∀ fail', dropColumn fail' (dropColumn fail db t c b).1 t c b
      = ((dropColumn fail db t c b).1,
         some (.plain "failed to create temp table")) := by
  have h1 : dropColumn fail db t c b
      = (db ++ [(t ++ "_temp",
          ⟨(getTableSchema db t).filter (fun col => !goHasPre col (c ++ " ")),
           copiedSoFar⟩)], some (.plain msg)) := by
    have hbody : dropColumn fail db t c b
        = (if !((getTableSchema db t).any (fun col => goHasPre col (c ++ " "))) then
            ((db, some (.plain ("column " ++ c ++ " does not exist in table " ++ t)))
              : DynDB × Option SvcError)
          else if (dbLookup db (t ++ "_temp")).isSome then
            (db, some (.plain "failed to create temp table"))
          else
            match copyLoop fail (tableRows db t)
                (getColumnNames ((getTableSchema db t).filter
                  (fun col => !goHasPre col (c ++ " ")))) b 0 [] with
            | (copied, none) =>
                ((db.filter (fun e => e.1 != t))
                  ++ [(t, ⟨(getTableSchema db t).filter
                        (fun col => !goHasPre col (c ++ " ")), copied⟩)], none)
            | (cp, some m) =>
                (db ++ [(t ++ "_temp", ⟨(getTableSchema db t).filter
                    (fun col => !goHasPre col (c ++ " ")), cp⟩)],
                 some (.plain m))) := rfl
    rw [hbody, if_neg (by simp [hex]), if_neg (by simp [htmp]), hcopy]
  have hsrc : dbLookup (dropColumn fail db t c b).1 t = dbLookup db t := by
    rw [h1]
    exact dbLookup_append_single_ne db _ t _ (Ne.symm (ne_append_temp t))
  refine ⟨h1, rfl, hsrc, ?_⟩
  intro fail'
  have hschema2 : getTableSchema (dropColumn fail db t c b).1 t
      = getTableSchema db t := by
    unfold getTableSchema
    rw [hsrc]
  have htmp2 : dbLookup (dropColumn fail db t c b).1 (t ++ "_temp")
      = some ⟨(getTableSchema db t).filter (fun col => !goHasPre col (c ++ " ")),
          copiedSoFar⟩ := by
    rw [h1]
    exact dbLookup_append_single_self db _ _ htmp
  have hbody2 : dropColumn fail' (dropColumn fail db t c b).1 t c b
      = (if !((getTableSchema (dropColumn fail db t c b).1 t).any
            (fun col => goHasPre col (c ++ " "))) then
          (((dropColumn fail db t c b).1, some (.plain ("column " ++ c
            ++ " does not exist in table " ++ t))) : DynDB × Option SvcError)
        else if (dbLookup (dropColumn fail db t c b).1 (t ++ "_temp")).isSome then
          ((dropColumn fail db t c b).1, some (.plain "failed to create temp table"))
        else
          match copyLoop fail' (tableRows (dropColumn fail db t c b).1 t)
              (getColumnNames ((getTableSchema (dropColumn fail db t c b).1 t).filter
                (fun col => !goHasPre col (c ++ " ")))) b 0 [] with
          | (copied, none) =>
              (((dropColumn fail db t c b).1.filter (fun e => e.1 != t))
                ++ [(t, ⟨(getTableSchema (dropColumn fail db t c b).1 t).filter
                      (fun col => !goHasPre col (c ++ " ")), copied⟩)], none)
          | (cp, some m) =>
              ((dropColumn fail db t c b).1 ++ [(t ++ "_temp",
                ⟨(getTableSchema (dropColumn fail db t c b).1 t).filter
                  (fun col => !goHasPre col (c ++ " ")), cp⟩)],
               some (.plain m))) := rfl
  rw [hbody2, if_neg (by rw [hschema2]; simp [hex]),
    if_pos (by rw [htmp2]; rfl)]

/-- Claim C3 counterexample: the copy failure surfaces as the plain wrapped
error `failed to copy data in batches: disk full` — not as the structured
`StorageOperation` status error the claim names — while the source table is
indeed left untouched. -/
theorem dropColumn_copy_error_not_status :
    (dropColumn failAt0 dbDropEx "t" "email" 1).2
      = some (.plain "failed to copy data in batches: disk full") ∧
    ((dropColumn failAt0 dbDropEx "t" "email" 1).2).map SvcError.isStatus
      = some false ∧
    dbLookup (dropColumn failAt0 dbDropEx "t" "email" 1).1 "t"
      = dbLookup dbDropEx "t" := by
  have hcl : copyLoop failAt0 (tableRows dbDropEx "t")
      (getColumnNames ((getTableSchema dbDropEx "t").filter
        (fun col => !goHasPre col ("email" ++ " ")))) 1 0 []
      = ([], some "failed to copy data in batches: disk full") :=
    copyLoop_fail_eq _ _ _ 1 0 [] "disk full" rfl
  have h1 : dropColumn failAt0 dbDropEx "t" "email" 1
      = (dbDropEx ++ [("t" ++ "_temp",
          ⟨(getTableSchema dbDropEx "t").filter
            (fun col => !goHasPre col ("email" ++ " ")), []⟩)],
         some (.plain "failed to copy data in batches: disk full")) := by
    have hbody : dropColumn failAt0 dbDropEx "t" "email" 1
        = (if !((getTableSchema dbDropEx "t").any
              (fun col => goHasPre col ("email" ++ " "))) then
            ((dbDropEx, some (.plain ("column " ++ "email"
              ++ " does not exist in table " ++ "t"))) : DynDB × Option SvcError)
          else if (dbLookup dbDropEx ("t" ++ "_temp")).isSome then
            (dbDropEx, some (.plain "failed to create temp table"))
          else
            match copyLoop failAt0 (tableRows dbDropEx "t")
                (getColumnNames ((getTableSchema dbDropEx "t").filter
                  (fun col => !goHasPre col ("email" ++ " ")))) 1 0 [] with
            | (copied, none) =>
                ((dbDropEx.filter (fun e => e.1 != "t"))
                  ++ [("t", ⟨(getTableSchema dbDropEx "t").filter
                        (fun col => !goHasPre col ("email" ++ " ")), copied⟩)], none)
            | (cp, some m) =>
                (dbDropEx ++ [("t" ++ "_temp",
                  ⟨(getTableSchema dbDropEx "t").filter
                    (fun col => !goHasPre col ("email" ++ " ")), cp⟩)],
                 some (.plain m))) := rfl
    rw [hbody, if_neg (by decide), if_neg (by decide), hcl]
  rw [h1]
  refine ⟨rfl, rfl, ?_⟩
  decide

/-- Witness for the amended C3: on the concrete table, with the first exec
failing, the hypotheses hold and the conclusions follow. -/
theorem dropColumn_copy_error_spec_witness :
    ((getTableSchema dbDropEx "t").any
        (fun col => goHasPre col ("email" ++ " ")) = true ∧
     dbLookup dbDropEx ("t" ++ "_temp") = none ∧
     copyLoop failAt0 (tableRows dbDropEx "t")
        (getColumnNames ((getTableSchema dbDropEx "t").filter
          (fun col => !goHasPre col ("email" ++ " ")))) 1 0 []
      = ([], some "failed to copy data in batches: disk full")) ∧
    (dropColumn failAt0 dbDropEx "t" "email" 1
        = (dbDropEx ++ [("t" ++ "_temp",
            ⟨(getTableSchema dbDropEx "t").filter
              (fun col => !goHasPre col ("email" ++ " ")), []⟩)],
           some (.plain "failed to copy data in batches: disk full")) ∧
     (SvcError.plain "failed to copy data in batches: disk full").isStatus = false ∧
     dbLookup (dropColumn failAt0 dbDropEx "t" "email" 1).1 "t"
        = dbLookup dbDropEx "t" ∧
     ∀ fail', dropColumn fail' (dropColumn failAt0 dbDropEx "t" "email" 1).1
          "t" "email" 1
        = ((dropColumn failAt0 dbDropEx "t" "email" 1).1,
           some (.plain "failed to create temp table"))) :=
  ⟨⟨by decide, by decide, copyLoop_fail_eq _ _ _ 1 0 [] "disk full" rfl⟩,
    dropColumn_copy_error_spec failAt0 dbDropEx "t" "email" 1 (by decide)
      (by decide) [] "failed to copy data in batches: disk full"
      (copyLoop_fail_eq _ _ _ 1 0 [] "disk full" rfl)⟩

end PAuth
